import Mathlib

/-!
Verification development for the BibTeX/Google-Scholar checker
(`bibtex_scholar_checker.py`).  The Python source is shallowly embedded:
pure string manipulation is modelled on `List Char` / `String`, the HTML
collaborator calls (BeautifulSoup `find_all` / `find`) are modelled by a
`Page` record holding the counts and strings those calls return, network
transport is modelled by a `FetchOutcome` value per lookup, and the file
write performed by `save_results` is modelled by an `Except`-valued
filesystem action.  Python `\w`, `\s` and `str` whitespace are modelled at
ASCII scope, which covers every string the program manipulates here.
-/

/-- Python whitespace class `\s` (ASCII scope): the six characters
space, tab, newline, carriage return, vertical tab, form feed. -/
def pyIsSpace (c : Char) : Bool :=
  c == ' ' || c == '\t' || c == '\n' || c == '\r' || c == '\x0b' || c == '\x0c'

/-- Python word-character class `\w` (ASCII scope): alphanumeric or underscore. -/
def pyIsWord (c : Char) : Bool :=
  c.isAlphanum || c == '_'

/-- Python `str.strip()` on a character list: drop leading and trailing whitespace. -/
def pyStrip (cs : List Char) : List Char :=
  ((cs.dropWhile pyIsSpace).reverse.dropWhile pyIsSpace).reverse

/-- Drop trailing whitespace only (the second half of `pyStrip`). -/
def dropTrail (cs : List Char) : List Char :=
  (cs.reverse.dropWhile pyIsSpace).reverse

/-- Accumulator pass of `pyWords`; `acc` holds the current word reversed. -/
def pyWordsAux : List Char → List Char → List (List Char)
  | [], acc => if acc.isEmpty then [] else [acc.reverse]
  | c :: cs, acc =>
    if pyIsSpace c then
      if acc.isEmpty then pyWordsAux cs [] else acc.reverse :: pyWordsAux cs []
    else
      pyWordsAux cs (c :: acc)

/-- Python `str.split()` with no argument: maximal runs of non-whitespace,
no empty words. -/
def pyWords (cs : List Char) : List (List Char) :=
  pyWordsAux cs []

/-- Python `' '.join(words)` on character lists. -/
def joinSp : List (List Char) → List Char
  | [] => []
  | [w] => w
  | w :: ws => w ++ ' ' :: joinSp ws

/-- One character of `re.sub(r'[^\w\s]', ' ', text)`: a character that is
neither a word character nor whitespace becomes a space. -/
def scrubChar (c : Char) : Char :=
  if pyIsWord c || pyIsSpace c then c else ' '

/-- Character-list core of `clean_text` (source lines 32-39):
`re.sub(r'[^\w\s]', ' ', text)`, then `' '.join(text.split())`, then `.strip()`. -/
def cleanChars (cs : List Char) : List Char :=
  pyStrip (joinSp (pyWords (cs.map scrubChar)))

/-- `GoogleScholarChecker.clean_text` (source lines 32-39). -/
def clean_text (s : String) : String :=
  String.mk (cleanChars s.data)

/-- Collapse every run of whitespace characters to a single space
(used to state the spec's wording of the normalization). -/
def collapseWS : List Char → List Char
  | [] => []
  | [c] => [if pyIsSpace c then ' ' else c]
  | c :: d :: cs =>
    if pyIsSpace c && pyIsSpace d then collapseWS (d :: cs)
    else (if pyIsSpace c then ' ' else c) :: collapseWS (d :: cs)

/-- The normalization exactly as the claim words it: delete (strip) every
character that is not alphanumeric or whitespace, collapse whitespace runs
to single spaces, trim both ends. -/
def clean_text_claimed (s : String) : String :=
  String.mk (pyStrip (collapseWS (s.data.filter (fun c => c.isAlphanum || pyIsSpace c))))

/-- The normalization as amended: replace every character that is not a word
character (alphanumeric or underscore) and not whitespace by a space, collapse
whitespace runs to single spaces, trim both ends. -/
def clean_text_amended (s : String) : String :=
  String.mk (pyStrip (collapseWS (s.data.map scrubChar)))

/-- Maximal-munch word splitter (proof-side reformulation of `pyWords`). -/
def munchWords : List Char → List (List Char)
  | [] => []
  | c :: cs =>
    if pyIsSpace c then munchWords cs
    else (c :: cs.takeWhile (fun d => !pyIsSpace d)) :: munchWords (cs.dropWhile (fun d => !pyIsSpace d))
termination_by cs => cs.length
decreasing_by
  · simp only [List.length_cons]
    omega
  · simp only [List.length_cons]
    have h : (cs.dropWhile (fun d => !pyIsSpace d)).length ≤ cs.length :=
      (List.dropWhile_sublist _).length_le
    omega

/-- Python `s.split(',')`: split at every comma, keeping empty segments. -/
def splitComma : List Char → List (List Char)
  | [] => [[]]
  | c :: cs =>
    if c == ',' then [] :: splitComma cs
    else
      match splitComma cs with
      | [] => [[c]]
      | w :: ws => (c :: w) :: ws

/-- The literal separator `" and "` used on the author field (source line 60). -/
def sepAnd : List Char := [' ', 'a', 'n', 'd', ' ']

/-- Fuelled worker for `splitAnd`; fuel at least the list length suffices. -/
def splitAndFuel : Nat → List Char → List (List Char)
  | _, [] => [[]]
  | 0, cs => [cs]
  | fuel + 1, c :: cs =>
    if sepAnd.isPrefixOf (c :: cs) then
      [] :: splitAndFuel fuel ((c :: cs).drop 5)
    else
      match splitAndFuel fuel cs with
      | [] => [[c]]
      | w :: ws => (c :: w) :: ws

/-- Python `s.split(' and ')` (source line 60): leftmost non-overlapping
occurrences of the five-character separator, keeping empty segments. -/
def splitAnd (cs : List Char) : List (List Char) :=
  splitAndFuel cs.length cs

/-- Last-name extraction from one (already first-selected) author string
(source lines 62-69): `first_author.split(',')`; if that has more than one
part, the trimmed text before the first comma; otherwise the final
whitespace-separated token, or empty if there is none. -/
def extractLastName (first_author : List Char) : List Char :=
  let name_parts := splitComma first_author
  if name_parts.length > 1 then
    pyStrip (name_parts.headD [])
  else
    (pyWords first_author).getLastD []

/-- `authors[0].strip()` for an author field (source lines 60-62). -/
def firstAuthorOf (author : List Char) : List Char :=
  pyStrip ((splitAnd author).headD [])

/-- One BibTeX entry, restricted to the fields `check_bibtex_file` and
`build_search_query` read (`ID`, `title`, `author`, `year`); each is
optional, as in the Python dict produced by the external parser. -/
structure BibEntry where
  ID : Option String
  title : Option String
  author : Option String
  year : Option String
deriving DecidableEq

/-- The quoted-title query part (source lines 54-56). -/
def titlePart (e : BibEntry) : List String :=
  match e.title with
  | none => []
  | some t => [("\"" ++ clean_text t ++ "\"")]

/-- The author-filter query part (source lines 59-72). -/
def authorPart (e : BibEntry) : List String :=
  match e.author with
  | none => []
  | some a =>
    match splitAnd a.data with
    | [] => []
    | first :: _ =>
      let last_name := extractLastName (pyStrip first)
      if last_name.isEmpty then []
      else [("author:\"" ++ String.mk last_name ++ "\"")]

/-- The raw-year query part (source lines 75-76). -/
def yearPart (e : BibEntry) : List String :=
  match e.year with
  | none => []
  | some y => [y]

/-- Python `' '.join(parts)` on strings (source line 78). -/
def joinSpaceStr : List String → String
  | [] => ""
  | [s] => s
  | s :: ss => s ++ " " ++ joinSpaceStr ss

/-- `GoogleScholarChecker.build_search_query` (source lines 41-78). -/
def build_search_query (e : BibEntry) : String :=
  joinSpaceStr (titlePart e ++ authorPart e ++ yearPart e)

/-- Result of the HTML collaborator calls on one fetched page
(source lines 104-111): the number of divs carrying the primary class
signature `gs_r gs_or gs_scl`, the number carrying the secondary class
signature `gs_ri`, and the `.string` contents of the page's div elements,
which `soup.find('div', string=regex)` searches. -/
structure Page where
  primaryDivs : Nat
  secondaryDivs : Nat
  divStrings : List String
deriving DecidableEq

/-- The fixed phrase fragment of the no-results regex (source line 111). -/
def noResultsPhrase : String := "did not match any articles"

/-- ASCII lowercasing of a string (model of `re.I` matching). -/
def toLowerStr (s : String) : String :=
  String.mk (s.data.map Char.toLower)

/-- `containsSub pat hay`: `pat` occurs contiguously somewhere in `hay`. -/
def containsSub (pat : List Char) : List Char → Bool
  | [] => pat.isEmpty
  | c :: cs => pat.isPrefixOf (c :: cs) || containsSub pat cs

/-- Case-insensitive substring test: the model of
`re.compile(pattern, re.I).search(text)` for a plain-text pattern. -/
def containsCI (hay pat : String) : Bool :=
  containsSub (toLowerStr pat).data (toLowerStr hay).data

/-- `find_all(primary) or find_all(secondary)` then `len` (source lines 107-108):
the primary marker count, falling back to the secondary count only when the
primary finds nothing. -/
def resultBlocks (page : Page) : Nat :=
  if page.primaryDivs != 0 then page.primaryDivs else page.secondaryDivs

/-- `soup.find('div', string=re.compile(r'did not match any articles', re.I))`
(source line 111): some div string contains the phrase, case-insensitively. -/
def noResultsFound (page : Page) : Bool :=
  page.divStrings.any (fun s => containsCI s noResultsPhrase)

/-- What one outbound lookup attempt produced: a transport exception
(`requests.RequestException`, source line 118), any other exception
(source line 120), or a response with a status code and parsed page. -/
inductive FetchOutcome where
  | requestException (detail : String)
  | otherException (detail : String)
  | response (status : Nat) (page : Page)
deriving DecidableEq

/-- `GoogleScholarChecker.search_google_scholar` classification
(source lines 97-121), as a function of the fetch outcome; returns
`(success, num_results, error_msg)`. -/
def search_google_scholar (outcome : FetchOutcome) : Bool × Nat × String :=
  match outcome with
  | FetchOutcome.requestException d => (false, 0, "Network error: " ++ d)
  | FetchOutcome.otherException d => (false, 0, "Error: " ++ d)
  | FetchOutcome.response status page =>
    if status == 429 then (false, 0, "Rate limited by Google Scholar")
    else if status != 200 then (false, 0, "HTTP " ++ toString status)
    else if noResultsFound page || resultBlocks page == 0 then (true, 0, "")
    else (true, resultBlocks page, "")

/-- One row of the result list built by `check_bibtex_file`
(source lines 162-170). -/
structure CheckResult where
  entry_id : String
  title : String
  query : String
  found : Bool
  num_results : Nat
  error : String
  success : Bool
deriving DecidableEq

/-- The body of the per-entry loop (source lines 148-172) for the `i`-th
entry (1-based, from `enumerate(entries, 1)`) with fetch outcome `o`. -/
def checkEntry (i : Nat) (e : BibEntry) (o : FetchOutcome) : CheckResult :=
  let entry_id := e.ID.getD ("entry_" ++ toString i)
  let title := e.title.getD ("No title")
  let query := build_search_query e
  let r := search_google_scholar o
  ⟨entry_id, title, query, r.1 && decide (r.2.1 > 0),
   if r.1 then r.2.1 else 0, r.2.2, r.1⟩

/-- The per-entry loop of `check_bibtex_file` (source lines 146-172),
indexed from `start`; `fetch i` is what lookup number `i` produced. -/
def checkLoop (fetch : Nat → FetchOutcome) : Nat → List BibEntry → List CheckResult
  | _, [] => []
  | i, e :: es => checkEntry i e (fetch i) :: checkLoop fetch (i + 1) es

/-- The full result sequence computed by `check_bibtex_file`
(`enumerate(entries, 1)` starts the counter at 1). -/
def run_checks (fetch : Nat → FetchOutcome) (entries : List BibEntry) : List CheckResult :=
  checkLoop fetch 1 entries

/-- The status line written per entry in the report (source lines 203-207). -/
def statusLine (r : CheckResult) : String :=
  if r.success then
    (if r.found then ("Status: FOUND (" ++ toString r.num_results ++ " results)")
     else ("Status: NOT FOUND (" ++ toString r.num_results ++ " results)"))
  else ("Status: ERROR - " ++ r.error)

/-- One per-entry block of the persisted report (source lines 198-209). -/
def entryBlock (r : CheckResult) : String :=
  "Entry ID: " ++ r.entry_id ++ "\n" ++ "Title: " ++ r.title ++ "\n"
    ++ "Query: " ++ r.query ++ "\n" ++ statusLine r ++ "\n"
    ++ String.mk (List.replicate 30 '-') ++ "\n\n"

/-- The full text that `save_results` writes (source lines 190-209). -/
def reportText (results : List CheckResult) : String :=
  "BibTeX Google Scholar Check Results\n" ++ String.mk (List.replicate 50 '=') ++ "\n\n"
    ++ "Summary: " ++ toString ((results.filter (fun r => r.found)).length)
    ++ "/" ++ toString results.length ++ " entries found\n\n"
    ++ String.join (results.map entryBlock)

/-- The `try` body of `save_results` (source lines 188-211): the filesystem
`fs` is asked to write the report text and may raise (return `error`);
on success the body yields the confirmation message. -/
def save_results_try (results : List CheckResult) (output_file : String)
    (fs : String → Except String Unit) : Except String String :=
  match fs (reportText results) with
  | Except.error e => Except.error e
  | Except.ok _ => Except.ok ("Results saved to: " ++ output_file)

/-- `GoogleScholarChecker.save_results` (source lines 186-213): the whole
body is wrapped in `try/except Exception`, so a raised write error is
converted into the logged message and never propagates. -/
def save_results (results : List CheckResult) (output_file : String)
    (fs : String → Except String Unit) : Except String String :=
  match save_results_try results output_file fs with
  | Except.ok msg => Except.ok msg
  | Except.error e => Except.ok ("Error saving results: " ++ e)

/-- `GoogleScholarChecker.check_bibtex_file` (source lines 146-184), taking
the already-parsed entry list (file parsing is the external collaborator),
the per-lookup fetch outcomes, and optionally an output path together with
the filesystem's response to the write.  A value `Except.error` would model
an exception propagating out of the function; the final `match` shows that
an error raised by `save_results` would do exactly that. -/
def check_bibtex_file (fetch : Nat → FetchOutcome) (entries : List BibEntry)
    (output : Option (String × (String → Except String Unit))) :
    Except String (List CheckResult) :=
  let results := run_checks fetch entries
  match output with
  | none => Except.ok results
  | some (output_file, fs) =>
    match save_results results output_file fs with
    | Except.ok _ => Except.ok results
    | Except.error e => Except.error e

/-- The aggregate numbers `print_summary` reports (source lines 215-234).
The success rate is modelled as an exact rational percentage (`found/total*100`);
the Python code formats this float with one decimal place when printing. -/
structure Summary where
  total : Nat
  found : Nat
  errors : Nat
  notFound : Int
  successRate : Option Rat
  errorEntries : List (String × String)
deriving DecidableEq

/-- `GoogleScholarChecker.print_summary` (source lines 215-234): the
computed aggregates; `successRate` is `none` exactly when the guard
`if total > 0` fails, in which case the code prints `N/A` instead of
dividing. -/
def print_summary (results : List CheckResult) : Summary :=
  let total := results.length
  let found := (results.filter (fun r => r.found)).length
  let errors := (results.filter (fun r => !r.success)).length
  ⟨total, found, errors, (total : Int) - (found : Int) - (errors : Int),
   if total > 0 then some (((found : Rat) / (total : Rat)) * 100) else none,
   (results.filter (fun r => !r.success)).map (fun r => (r.entry_id, r.error))⟩

/-- The entry of the end-to-end example: title, author and year fields set,
no `ID`. -/
def vaswaniEntry : BibEntry :=
  ⟨none, some ("Attention Is All You Need"), some ("Vaswani, A. and others"), some ("2017")⟩

/-- A page carrying one primary result block together with a div whose text
contains the no-results phrase. -/
def blocksAndPhrasePage : Page :=
  ⟨1, 0, [("Your search Did Not Match Any Articles here")]⟩

/-- A page with two primary result blocks and no no-results phrase. -/
def twoBlocksPage : Page :=
  ⟨2, 0, []⟩

/-- An arbitrary parsed page, used when the status code decides the outcome. -/
def emptyPage : Page :=
  ⟨0, 0, []⟩

/-- An entry carrying no fields at all. -/
def emptyBibEntry : BibEntry :=
  ⟨none, none, none, none⟩

/-- A world in which every lookup raises a transport exception. -/
def allFailFetch : Nat → FetchOutcome :=
  fun _ => FetchOutcome.requestException ("connection refused")

/-- C4: a lookup with no status-200 response classifies as `success=false`,
`numResults=0`, with the distinguished error message: `Rate limited ...` on
status 429, `HTTP <code>` on any other non-200 status, and
`Network error: <detail>` on a transport failure. -/
theorem claim_C4 :
    (∀ detail : String,
      search_google_scholar (FetchOutcome.requestException detail)
        = (false, 0, "Network error: " ++ detail)) ∧
    (∀ page : Page,
      search_google_scholar (FetchOutcome.response 429 page)
        = (false, 0, "Rate limited by Google Scholar")) ∧
    containsSub (String.data ("Rate limited")) (String.data ("Rate limited by Google Scholar")) = true ∧
    (∀ (status : Nat) (page : Page), status ≠ 200 → status ≠ 429 →
      search_google_scholar (FetchOutcome.response status page)
        = (false, 0, "HTTP " ++ toString status)) := by
  refine ⟨fun d => rfl, fun page => rfl, by decide, fun status page h200 h429 => ?_⟩
  have h1 : (status == 429) = false := by simp [h429]
  have h2 : (status != 200) = true := by simp [h200]
  simp [search_google_scholar, h1, h2]

/-- Witness for `claim_C4` at the concrete status 500. -/
theorem claim_C4_witness :
    search_google_scholar (FetchOutcome.response 500 emptyPage)
      = (false, 0, "HTTP " ++ toString 500) :=
  claim_C4.2.2.2 500 emptyPage (by decide) (by decide)

/-- C3 (amended): on a status-200 response the classifier yields
`success=true` with empty error; the block count comes from the primary
marker, falling back to the secondary marker only when the primary finds
nothing; `numResults` equals the block count whenever at least one block is
found AND the no-results phrase is absent, and is 0 whenever the phrase is
present or no blocks are found. -/
theorem claim_C3 (page : Page) :
    (search_google_scholar (FetchOutcome.response 200 page)).1 = true ∧
    (search_google_scholar (FetchOutcome.response 200 page)).2.2 = "" ∧
    (page.primaryDivs ≠ 0 → resultBlocks page = page.primaryDivs) ∧
    (page.primaryDivs = 0 → resultBlocks page = page.secondaryDivs) ∧
    (noResultsFound page = false → 0 < resultBlocks page →
      (search_google_scholar (FetchOutcome.response 200 page)).2.1 = resultBlocks page) ∧
    ((noResultsFound page = true ∨ resultBlocks page = 0) →
      (search_google_scholar (FetchOutcome.response 200 page)).2.1 = 0) := by
  refine ⟨?_, ?_, ?_, ?_, ?_, ?_⟩
  · by_cases hc : (noResultsFound page || resultBlocks page == 0) = true <;>
      simp [search_google_scholar, hc]
  · by_cases hc : (noResultsFound page || resultBlocks page == 0) = true <;>
      simp [search_google_scholar, hc]
  · intro h
    simp [resultBlocks, h]
  · intro h
    simp [resultBlocks, h]
  · intro hn hb
    have hc : (noResultsFound page || resultBlocks page == 0) = false := by
      simp [hn]
      omega
    simp [search_google_scholar, hc]
  · intro h
    have hc : (noResultsFound page || resultBlocks page == 0) = true := by
      rcases h with h | h <;> simp [h]
    simp [search_google_scholar, hc]

/-- Counterexample to C3 as stated: a status-200 page where one result block
is found but the no-results phrase also appears; the claim's "numResults=K
whenever K≥1 result blocks are found" demands 1, the code returns 0. -/
theorem claim_C3_counterexample :
    resultBlocks blocksAndPhrasePage = 1 ∧
    noResultsFound blocksAndPhrasePage = true ∧
    (search_google_scholar (FetchOutcome.response 200 blocksAndPhrasePage)).2.1 = 0 ∧
    (search_google_scholar (FetchOutcome.response 200 blocksAndPhrasePage)).2.1
      ≠ resultBlocks blocksAndPhrasePage := by
  decide

/-- Witness for `claim_C3`: on a page with two primary blocks and no phrase,
the classifier reports exactly two results. -/
theorem claim_C3_witness :
    (search_google_scholar (FetchOutcome.response 200 twoBlocksPage)).2.1
      = resultBlocks twoBlocksPage :=
  (claim_C3 twoBlocksPage).2.2.2.2.1 (by decide) (by decide)

/-- C5: the query built for the record with title "Attention Is All You
Need", author "Vaswani, A. and others" and year "2017" is exactly
`"Attention Is All You Need" author:"Vaswani" 2017`. -/
theorem claim_C5 :
    build_search_query vaswaniEntry
      = "\"Attention Is All You Need\" author:\"Vaswani\" 2017" := by
  decide

/-- C8: the summary computes not-found = total − found − errors, reports the
success rate `found/total*100` only when total > 0, and reports no rate
(printed as `N/A`, with the division never evaluated) when total = 0. -/
theorem claim_C8 (results : List CheckResult) :
    (print_summary results).notFound
      = (results.length : Int) - ((results.filter (fun r => r.found)).length : Int)
        - ((results.filter (fun r => !r.success)).length : Int) ∧
    (results.length = 0 → (print_summary results).successRate = none) ∧
    (0 < results.length →
      (print_summary results).successRate
        = some ((((results.filter (fun r => r.found)).length : Rat) / (results.length : Rat)) * 100)) := by
  refine ⟨rfl, ?_, ?_⟩
  · intro h
    simp [print_summary, h]
  · intro h
    simp [print_summary, h]

/-- Witness for `claim_C8`: with no results the rate is reported as absent. -/
theorem claim_C8_witness : (print_summary []).successRate = none :=
  (claim_C8 []).2.1 rfl

/-- The per-entry loop yields one result per entry. -/
theorem checkLoop_length (fetch : Nat → FetchOutcome) (es : List BibEntry) :
    ∀ start, (checkLoop fetch start es).length = es.length := by
  induction es with
  | nil => intro start; rfl
  | cons e es ih => intro start; simp [checkLoop, ih (start + 1)]

/-- The `i`-th loop result is built from the `i`-th entry and the `(start+i)`-th
fetch outcome. -/
theorem checkLoop_getElem (fetch : Nat → FetchOutcome) (es : List BibEntry) :
    ∀ start i, (checkLoop fetch start es)[i]?
      = (es[i]?).map (fun e => checkEntry (start + i) e (fetch (start + i))) := by
  induction es with
  | nil => intro start i; simp [checkLoop]
  | cons e es ih =>
    intro start i
    cases i with
    | zero => simp [checkLoop]
    | succ j =>
      have hidx : start + 1 + j = start + (j + 1) := by omega
      simp [checkLoop, ih (start + 1) j, hidx]

/-- `save_results` never propagates an error: the `except` clause converts it. -/
theorem save_results_eq_ok (results : List CheckResult) (output_file : String)
    (fs : String → Except String Unit) :
    ∃ msg, save_results results output_file fs = Except.ok msg := by
  cases h : save_results_try results output_file fs with
  | ok m => exact ⟨m, by simp [save_results, h]⟩
  | error e => exact ⟨"Error saving results: " ++ e, by simp [save_results, h]⟩

/-- `check_bibtex_file` always returns the computed result sequence,
whatever the output option and filesystem do. -/
theorem check_bibtex_file_eq (fetch : Nat → FetchOutcome) (entries : List BibEntry)
    (output : Option (String × (String → Except String Unit))) :
    check_bibtex_file fetch entries output = Except.ok (run_checks fetch entries) := by
  cases output with
  | none => rfl
  | some p =>
    obtain ⟨output_file, fs⟩ := p
    obtain ⟨msg, hm⟩ := save_results_eq_ok (run_checks fetch entries) output_file fs
    simp [check_bibtex_file, hm]

/-- C1: the batch run over N entries yields exactly N `CheckResult`s, one per
entry in input order, for every fetch behaviour (in particular when every
lookup fails); no per-entry outcome terminates the run early. -/
theorem claim_C1 (fetch : Nat → FetchOutcome) (entries : List BibEntry)
    (output : Option (String × (String → Except String Unit))) :
    check_bibtex_file fetch entries output = Except.ok (run_checks fetch entries) ∧
    (run_checks fetch entries).length = entries.length ∧
    (∀ i : Nat, (run_checks fetch entries)[i]?
      = (entries[i]?).map (fun e => checkEntry (i + 1) e (fetch (i + 1)))) := by
  refine ⟨check_bibtex_file_eq fetch entries output, checkLoop_length fetch entries 1, ?_⟩
  intro i
  have h := checkLoop_getElem fetch entries 1 i
  have hidx : 1 + i = i + 1 := by omega
  rw [hidx] at h
  exact h

/-- Every result the loop body constructs satisfies the `found`/`success`
invariant of the result record (source lines 162-170). -/
theorem checkEntry_invariant (i : Nat) (e : BibEntry) (o : FetchOutcome) :
    ((checkEntry i e o).found = true ↔
      ((checkEntry i e o).success = true ∧ 0 < (checkEntry i e o).num_results)) ∧
    ((checkEntry i e o).success = false →
      (checkEntry i e o).num_results = 0 ∧ (checkEntry i e o).found = false) := by
  rcases hr : search_google_scholar o with ⟨s, n, msg⟩
  cases s <;> simp [checkEntry, hr, Nat.pos_iff_ne_zero]

/-- Every member of the loop's output is `checkEntry` applied to some index
and entry. -/
theorem checkLoop_mem (fetch : Nat → FetchOutcome) :
    ∀ (es : List BibEntry) (start : Nat) (r : CheckResult), r ∈ checkLoop fetch start es →
      ∃ i e, r = checkEntry i e (fetch i) := by
  intro es
  induction es with
  | nil => intro start r hr; simp [checkLoop] at hr
  | cons e es ih =>
    intro start r hr
    rcases List.mem_cons.mp hr with h | h
    · exact ⟨start, e, h⟩
    · exact ih (start + 1) r h

/-- C2: for every `CheckResult` the batch run produces, `found=true` iff
`success=true` and `numResults>0`, and `success=false` forces
`numResults=0` and `found=false`. -/
theorem claim_C2 (fetch : Nat → FetchOutcome) (entries : List BibEntry) :
    ∀ r ∈ run_checks fetch entries,
      (r.found = true ↔ (r.success = true ∧ 0 < r.num_results)) ∧
      (r.success = false → r.num_results = 0 ∧ r.found = false) := by
  intro r hr
  obtain ⟨i, e, rfl⟩ := checkLoop_mem fetch entries 1 r hr
  exact checkEntry_invariant i e (fetch i)

/-- Witness for `claim_C2` on a one-entry run whose single lookup fails. -/
theorem claim_C2_witness :
    ((checkEntry 1 emptyBibEntry (allFailFetch 1)).found = true ↔
      ((checkEntry 1 emptyBibEntry (allFailFetch 1)).success = true ∧
        0 < (checkEntry 1 emptyBibEntry (allFailFetch 1)).num_results)) ∧
    ((checkEntry 1 emptyBibEntry (allFailFetch 1)).success = false →
      (checkEntry 1 emptyBibEntry (allFailFetch 1)).num_results = 0 ∧
        (checkEntry 1 emptyBibEntry (allFailFetch 1)).found = false) :=
  claim_C2 allFailFetch [emptyBibEntry]
    (checkEntry 1 emptyBibEntry (allFailFetch 1)) (by decide)

/-- C9: a failing report write is surfaced as the logged message and changes
nothing: the run returns exactly the results it returns when the write
succeeds. -/
theorem claim_C9 (fetch : Nat → FetchOutcome) (entries : List BibEntry)
    (output_file : String) (msg : String) :
    check_bibtex_file fetch entries (some (output_file, fun _ => Except.error msg))
      = check_bibtex_file fetch entries (some (output_file, fun _ => Except.ok ())) ∧
    check_bibtex_file fetch entries (some (output_file, fun _ => Except.error msg))
      = Except.ok (run_checks fetch entries) ∧
    save_results (run_checks fetch entries) output_file (fun _ => Except.error msg)
      = Except.ok ("Error saving results: " ++ msg) := by
  refine ⟨?_, ?_, ?_⟩
  · rw [check_bibtex_file_eq, check_bibtex_file_eq]
  · exact check_bibtex_file_eq fetch entries _
  · simp [save_results, save_results_try]

/-- C10: an entry with no `ID` gets the synthesized id `entry_<i>` for its
1-based position `i`, and an entry with no `title` gets the placeholder
`No title` while its query is built from the author and year parts only. -/
theorem claim_C10 (fetch : Nat → FetchOutcome) (entries : List BibEntry)
    (i : Nat) (e : BibEntry) (h : entries[i]? = some e) :
    (e.ID = none →
      ((run_checks fetch entries)[i]?).map (fun r => r.entry_id)
        = some ("entry_" ++ toString (i + 1))) ∧
    (e.title = none →
      ((run_checks fetch entries)[i]?).map (fun r => r.title) = some ("No title")) ∧
    (e.title = none →
      ((run_checks fetch entries)[i]?).map (fun r => r.query)
        = some (joinSpaceStr (authorPart e ++ yearPart e))) := by
  have hg := checkLoop_getElem fetch entries 1 i
  have hidx : 1 + i = i + 1 := by omega
  rw [hidx] at hg
  have hrc : (run_checks fetch entries)[i]?
      = some (checkEntry (i + 1) e (fetch (i + 1))) := by
    rw [run_checks, hg, h]
    rfl
  refine ⟨?_, ?_, ?_⟩
  · intro hid
    rw [hrc]
    simp [checkEntry, hid]
  · intro ht
    rw [hrc]
    simp [checkEntry, ht]
  · intro ht
    rw [hrc]
    simp [checkEntry, build_search_query, titlePart, ht]

/-- Witness for `claim_C10` on a one-entry run where the entry has no `ID`. -/
theorem claim_C10_witness :
    ((run_checks allFailFetch [emptyBibEntry])[0]?).map (fun r => r.entry_id)
      = some ("entry_" ++ toString (0 + 1)) :=
  (claim_C10 allFailFetch [emptyBibEntry] 0 emptyBibEntry (by decide)).1 rfl

/-- `splitComma` always yields at least one segment, like Python `split`. -/
theorem splitComma_ne_nil : ∀ cs : List Char, splitComma cs ≠ [] := by
  intro cs
  induction cs with
  | nil => simp [splitComma]
  | cons c cs ih =>
    by_cases h : (c == ',') = true
    · simp [splitComma, h]
    · rcases hsc : splitComma cs with _ | ⟨w, ws⟩
      · exact absurd hsc ih
      · simp [splitComma, h, hsc]

/-- The first comma-segment is the text before the first comma. -/
theorem splitComma_headD :
    ∀ cs : List Char, (splitComma cs).headD [] = cs.takeWhile (fun c => c != ',') := by
  intro cs
  induction cs with
  | nil => simp [splitComma]
  | cons c cs ih =>
    by_cases h : (c == ',') = true
    · have hc : c = ',' := by simpa using h
      simp [splitComma, h, hc]
    · rcases hsc : splitComma cs with _ | ⟨w, ws⟩
      · exact absurd hsc (splitComma_ne_nil cs)
      · have hne : (c != ',') = true := by simpa [bne] using h
        rw [hsc] at ih
        simp [splitComma, h, hsc, List.takeWhile_cons, hne]
        simpa using ih

/-- `split(',')` yields more than one part exactly when a comma is present. -/
theorem splitComma_length_gt_one :
    ∀ cs : List Char, 1 < (splitComma cs).length ↔ ',' ∈ cs := by
  intro cs
  induction cs with
  | nil => simp [splitComma]
  | cons c cs ih =>
    by_cases h : (c == ',') = true
    · have hc : c = ',' := by simpa using h
      have hlen : 1 ≤ (splitComma cs).length :=
        List.length_pos.mpr (splitComma_ne_nil cs)
      simp [splitComma, h, hc]
      omega
    · have hc : ¬ c = ',' := by simpa using h
      rcases hsc : splitComma cs with _ | ⟨w, ws⟩
      · exact absurd hsc (splitComma_ne_nil cs)
      · rw [hsc] at ih
        have hrw : splitComma (c :: cs) = (c :: w) :: ws := by
          simp [splitComma, h, hsc]
        rw [hrw]
        simp only [List.length_cons] at ih ⊢
        constructor
        · intro h1
          exact List.mem_cons.mpr (Or.inr (ih.mp (by omega)))
        · intro hm
          rcases List.mem_cons.mp hm with h1 | h1
          · exact absurd h1.symm hc
          · have := ih.mpr h1
            omega

/-- C7: last-name extraction uses only the first author of the
`" and "`-separated list; when the (stripped) first author contains a comma
it yields the trimmed text before the first comma, otherwise the final
whitespace-separated token; "Smith, John" and "John Smith" both give
"Smith", and "A and B and C" extracts from "A" alone. -/
theorem claim_C7 :
    (∀ cs : List Char, ',' ∈ cs →
      extractLastName cs = pyStrip (cs.takeWhile (fun c => c != ','))) ∧
    (∀ cs : List Char, ',' ∉ cs →
      extractLastName cs = (pyWords cs).getLastD []) ∧
    extractLastName (firstAuthorOf (String.data ("Smith, John"))) = String.data ("Smith") ∧
    extractLastName (firstAuthorOf (String.data ("John Smith"))) = String.data ("Smith") ∧
    firstAuthorOf (String.data ("A and B and C")) = String.data ("A") ∧
    extractLastName (firstAuthorOf (String.data ("A and B and C")))
      = extractLastName (String.data ("A")) := by
  refine ⟨?_, ?_, by decide, by decide, by decide, by decide⟩
  · intro cs h
    simp only [extractLastName]
    rw [if_pos ((splitComma_length_gt_one cs).mpr h), splitComma_headD cs]
  · intro cs h
    simp only [extractLastName]
    rw [if_neg (fun hgt => h ((splitComma_length_gt_one cs).mp hgt))]

/-- Witness for `claim_C7` at the concrete comma-carrying author string. -/
theorem claim_C7_witness :
    extractLastName (String.data ("Smith, John"))
      = pyStrip ((String.data ("Smith, John")).takeWhile (fun c => c != ',')) :=
  claim_C7.1 (String.data ("Smith, John")) (by decide)

/-- `dropWhile` leaves a list alone when no element satisfies the predicate. -/
theorem dropWhile_eq_self_of_all {q : Char → Bool} :
    ∀ l : List Char, (∀ x ∈ l, q x = false) → l.dropWhile q = l := by
  intro l h
  cases l with
  | nil => rfl
  | cons c cs =>
    rw [List.dropWhile_cons_of_neg]
    simp [h c (List.mem_cons_self c cs)]

/-- The head surviving a `dropWhile` fails the predicate. -/
theorem dropWhile_head_false {q : Char → Bool} :
    ∀ (l : List Char) (d : Char) (r : List Char), l.dropWhile q = d :: r → q d = false := by
  intro l
  induction l with
  | nil =>
    intro d r h
    simp at h
  | cons c cs ih =>
    intro d r h
    by_cases hc : q c = true
    · rw [List.dropWhile_cons_of_pos hc] at h
      exact ih d r h
    · rw [List.dropWhile_cons_of_neg hc] at h
      cases h
      simpa using hc

/-- `dropWhile` is idempotent. -/
theorem dropWhile_self {q : Char → Bool} (l : List Char) :
    (l.dropWhile q).dropWhile q = l.dropWhile q := by
  cases h : l.dropWhile q with
  | nil => rfl
  | cons c r =>
    have hc : q c = false := dropWhile_head_false l c r h
    rw [List.dropWhile_cons_of_neg (by simp [hc])]

/-- `pyStrip` skips a leading whitespace character. -/
theorem pyStrip_cons_space {c : Char} (cs : List Char) (h : pyIsSpace c = true) :
    pyStrip (c :: cs) = pyStrip cs := by
  unfold pyStrip
  rw [List.dropWhile_cons_of_pos h]

/-- `pyStrip` on a list with non-whitespace head only trims the tail. -/
theorem pyStrip_eq_dropTrail {c : Char} (cs : List Char) (h : pyIsSpace c = false) :
    pyStrip (c :: cs) = dropTrail (c :: cs) := by
  unfold pyStrip dropTrail
  rw [List.dropWhile_cons_of_neg (by simp [h])]

/-- Trailing trim leaves an all-non-whitespace list alone. -/
theorem dropTrail_all {t : List Char} (h : ∀ x ∈ t, pyIsSpace x = false) :
    dropTrail t = t := by
  unfold dropTrail
  rw [dropWhile_eq_self_of_all t.reverse (fun x hx => h x (List.mem_reverse.mp hx)),
    List.reverse_reverse]

/-- `pyStrip` leaves an all-non-whitespace list alone. -/
theorem pyStrip_of_all {t : List Char} (h : ∀ x ∈ t, pyIsSpace x = false) :
    pyStrip t = t := by
  unfold pyStrip
  rw [dropWhile_eq_self_of_all t h,
    dropWhile_eq_self_of_all t.reverse (fun x hx => h x (List.mem_reverse.mp hx)),
    List.reverse_reverse]

/-- A trailing single space is removed by the trailing trim. -/
theorem dropTrail_append_space (t : List Char) :
    dropTrail (t ++ [' ']) = dropTrail t := by
  unfold dropTrail
  rw [List.reverse_append]
  simp only [List.reverse_cons, List.reverse_nil, List.nil_append, List.singleton_append]
  rw [List.dropWhile_cons_of_pos (by decide : pyIsSpace ' ' = true)]

/-- `dropWhile` distributes over an append whose left part does not vanish. -/
theorem dropWhile_append_of_ne_nil {q : Char → Bool} {u : List Char} (v : List Char)
    (h : u.dropWhile q ≠ []) : (u ++ v).dropWhile q = u.dropWhile q ++ v := by
  rw [List.dropWhile_append]
  simp [List.isEmpty_iff, h]

/-- Trailing trim passes over a prefix when the suffix does not trim away. -/
theorem dropTrail_append {A X : List Char} (h : dropTrail X ≠ []) :
    dropTrail (A ++ X) = A ++ dropTrail X := by
  have hne : X.reverse.dropWhile pyIsSpace ≠ [] := by
    intro hh
    exact h (by unfold dropTrail; rw [hh]; rfl)
  unfold dropTrail
  rw [List.reverse_append, dropWhile_append_of_ne_nil A.reverse hne, List.reverse_append,
    List.reverse_reverse]

/-- A list containing a non-whitespace character does not trim to nothing. -/
theorem dropTrail_ne_nil {X : List Char} {x : Char} (hx : x ∈ X) (hs : pyIsSpace x = false) :
    dropTrail X ≠ [] := by
  unfold dropTrail
  intro hh
  have h0 : X.reverse.dropWhile pyIsSpace = [] := by
    have h1 := congrArg List.reverse hh
    simpa using h1
  have h2 := List.dropWhile_eq_nil_iff.mp h0 x (List.mem_reverse.mpr hx)
  simp [hs] at h2

/-- `pyStrip` is idempotent. -/
theorem pyStrip_idem (cs : List Char) : pyStrip (pyStrip cs) = pyStrip cs := by
  have hu : cs.dropWhile pyIsSpace
      = pyStrip cs ++ ((cs.dropWhile pyIsSpace).reverse.takeWhile pyIsSpace).reverse := by
    have h0 := List.takeWhile_append_dropWhile pyIsSpace (cs.dropWhile pyIsSpace).reverse
    have h1 := congrArg List.reverse h0
    simp only [List.reverse_append, List.reverse_reverse] at h1
    exact h1.symm
  have hstep1 : (pyStrip cs).dropWhile pyIsSpace = pyStrip cs := by
    cases hy : pyStrip cs with
    | nil => rfl
    | cons c y' =>
      rw [hy, List.cons_append] at hu
      have hc : pyIsSpace c = false := dropWhile_head_false cs c _ hu
      rw [List.dropWhile_cons_of_neg (by simp [hc])]
  have hyrev : (pyStrip cs).reverse = ((cs.dropWhile pyIsSpace).reverse).dropWhile pyIsSpace := by
    unfold pyStrip
    rw [List.reverse_reverse]
  have hstep2 : dropTrail (pyStrip cs) = pyStrip cs := by
    unfold dropTrail
    rw [hyrev, dropWhile_self, ← hyrev, List.reverse_reverse]
  calc pyStrip (pyStrip cs) = dropTrail ((pyStrip cs).dropWhile pyIsSpace) := rfl
    _ = dropTrail (pyStrip cs) := by rw [hstep1]
    _ = pyStrip cs := hstep2

/-- Unfolding lemma: collapsing after a whitespace head skips the whole run. -/
theorem collapseWS_cons_space : ∀ (cs : List Char) (c : Char), pyIsSpace c = true →
    collapseWS (c :: cs) = ' ' :: collapseWS (cs.dropWhile pyIsSpace) := by
  intro cs
  induction cs with
  | nil =>
    intro c h
    simp [collapseWS, h]
  | cons d cs ih =>
    intro c h
    by_cases hd : pyIsSpace d = true
    · have h1 : collapseWS (c :: d :: cs) = collapseWS (d :: cs) := by
        simp [collapseWS, h, hd]
      rw [h1, ih d hd, List.dropWhile_cons_of_pos hd]
    · have hd' : pyIsSpace d = false := by simpa using hd
      simp [collapseWS, h, hd', List.dropWhile_cons_of_neg]

/-- Unfolding lemma: a non-whitespace head passes through `collapseWS`. -/
theorem collapseWS_cons_nonspace (cs : List Char) (c : Char) (h : pyIsSpace c = false) :
    collapseWS (c :: cs) = c :: collapseWS cs := by
  cases cs with
  | nil => simp [collapseWS, h]
  | cons d cs => simp [collapseWS, h]

/-- `collapseWS` passes over an all-non-whitespace prefix. -/
theorem collapseWS_append_word {t : List Char} (r : List Char)
    (h : ∀ x ∈ t, pyIsSpace x = false) :
    collapseWS (t ++ r) = t ++ collapseWS r := by
  induction t with
  | nil => rfl
  | cons c t ih =>
    rw [List.cons_append,
      collapseWS_cons_nonspace _ c (h c (List.mem_cons_self c t)),
      ih (fun x hx => h x (List.mem_cons_of_mem c hx)), List.cons_append]

/-- `munchWords` of the empty list. -/
theorem munchWords_nil : munchWords [] = [] := by
  simp [munchWords]

/-- `munchWords` skips a whitespace head. -/
theorem munchWords_cons_space {c : Char} (cs : List Char) (h : pyIsSpace c = true) :
    munchWords (c :: cs) = munchWords cs := by
  rw [munchWords]
  simp [h]

/-- `munchWords` takes a maximal word from a non-whitespace head. -/
theorem munchWords_cons_nonspace {c : Char} (cs : List Char) (h : pyIsSpace c = false) :
    munchWords (c :: cs)
      = (c :: cs.takeWhile (fun d => !pyIsSpace d))
        :: munchWords (cs.dropWhile (fun d => !pyIsSpace d)) := by
  rw [munchWords]
  simp [h]

/-- Leading whitespace does not change the word list. -/
theorem munchWords_dropWhile : ∀ cs : List Char,
    munchWords (cs.dropWhile pyIsSpace) = munchWords cs := by
  intro cs
  induction cs with
  | nil => rfl
  | cons c cs ih =>
    by_cases h : pyIsSpace c = true
    · rw [List.dropWhile_cons_of_pos h, ih, munchWords_cons_space cs h]
    · rw [List.dropWhile_cons_of_neg h]

/-- Splitting off a leading all-non-whitespace word from `munchWords`. -/
theorem munchWords_append_word (t u : List Char) (c : Char)
    (hc : pyIsSpace c = false) (ht : ∀ x ∈ t, pyIsSpace x = false) :
    munchWords ((c :: t) ++ u)
      = ((c :: t) ++ u.takeWhile (fun d => !pyIsSpace d))
        :: munchWords (u.dropWhile (fun d => !pyIsSpace d)) := by
  have hq : ∀ x ∈ t, (fun d => !pyIsSpace d) x := by
    intro x hx
    simp [ht x hx]
  rw [List.cons_append, munchWords_cons_nonspace (t ++ u) hc,
    List.takeWhile_append_of_pos hq, List.dropWhile_append_of_pos hq, List.cons_append]

/-- An all-non-whitespace nonempty list is a single word. -/
theorem munchWords_word (t : List Char) (c : Char) (hc : pyIsSpace c = false)
    (ht : ∀ x ∈ t, pyIsSpace x = false) : munchWords (c :: t) = [c :: t] := by
  have h := munchWords_append_word t [] c hc ht
  simpa [munchWords_nil] using h

/-- `joinSp` over a list with a nonempty tail. -/
theorem joinSp_cons (w : List Char) {ws : List (List Char)} (h : ws ≠ []) :
    joinSp (w :: ws) = w ++ ' ' :: joinSp ws := by
  cases ws with
  | nil => exact absurd rfl h
  | cons w2 ws => rfl

/-- The single-pass splitter agrees with the maximal-munch splitter;
`acc` is the reversed partial word. -/
theorem pyWordsAux_eq_munch : ∀ (cs acc : List Char), (∀ x ∈ acc, pyIsSpace x = false) →
    pyWordsAux cs acc = munchWords (acc.reverse ++ cs) := by
  intro cs
  induction cs with
  | nil =>
    intro acc hacc
    cases acc with
    | nil => simp [pyWordsAux, munchWords_nil]
    | cons a as =>
      rcases hr : (a :: as).reverse with _ | ⟨c, t⟩
      · exact absurd hr (by simp)
      · have hmem : ∀ x ∈ c :: t, pyIsSpace x = false := by
          intro x hx
          refine hacc x ?_
          rw [← List.mem_reverse, hr]
          exact hx
        have hword := munchWords_word t c (hmem c (List.mem_cons_self c t))
          (fun x hx => hmem x (List.mem_cons_of_mem c hx))
        simp [pyWordsAux, hr, List.append_nil, hword]
  | cons c cs ih =>
    intro acc hacc
    by_cases hc : pyIsSpace c = true
    · cases acc with
      | nil =>
        have h1 : pyWordsAux (c :: cs) [] = pyWordsAux cs [] := by
          simp [pyWordsAux, hc]
        rw [h1, ih [] (by simp)]
        simp [munchWords_cons_space cs hc]
      | cons a as =>
        have h1 : pyWordsAux (c :: cs) (a :: as) = (a :: as).reverse :: pyWordsAux cs [] := by
          simp [pyWordsAux, hc]
        rcases hr : (a :: as).reverse with _ | ⟨c0, t0⟩
        · exact absurd hr (by simp)
        · have hmem : ∀ x ∈ c0 :: t0, pyIsSpace x = false := by
            intro x hx
            refine hacc x ?_
            rw [← List.mem_reverse, hr]
            exact hx
          have happ := munchWords_append_word t0 (c :: cs) c0
            (hmem c0 (List.mem_cons_self c0 t0))
            (fun x hx => hmem x (List.mem_cons_of_mem c0 hx))
          have htk : (c :: cs).takeWhile (fun d => !pyIsSpace d) = [] := by
            rw [List.takeWhile_cons_of_neg]
            simp [hc]
          have hdr : (c :: cs).dropWhile (fun d => !pyIsSpace d) = c :: cs := by
            rw [List.dropWhile_cons_of_neg]
            simp [hc]
          rw [h1, hr, happ, htk, hdr, List.append_nil, munchWords_cons_space cs hc,
            ih [] (by simp)]
          rfl
    · have hc' : pyIsSpace c = false := by simpa using hc
      have h1 : pyWordsAux (c :: cs) acc = pyWordsAux cs (c :: acc) := by
        simp [pyWordsAux, hc']
      have hmem : ∀ x ∈ c :: acc, pyIsSpace x = false := by
        intro x hx
        rcases List.mem_cons.mp hx with rfl | hx'
        · exact hc'
        · exact hacc x hx'
      rw [h1, ih (c :: acc) hmem]
      simp [List.reverse_cons, List.append_assoc]

/-- `pyWords` (the Python `str.split()` model) equals the maximal-munch splitter. -/
theorem pyWords_eq_munch (cs : List Char) : pyWords cs = munchWords cs := by
  have h := pyWordsAux_eq_munch cs [] (by simp)
  simpa [pyWords] using h

/-- Core normalization equivalence: trimming the whitespace-collapsed list
equals joining its whitespace-separated words with single spaces. -/
theorem strip_collapse_aux : ∀ (n : Nat) (cs : List Char), cs.length ≤ n →
    pyStrip (collapseWS cs) = joinSp (munchWords cs) := by
  intro n
  induction n with
  | zero =>
    intro cs h
    have h0 : cs = [] := List.length_eq_zero.mp (Nat.le_zero.mp h)
    subst h0
    rw [munchWords_nil]
    rfl
  | succ n ih =>
    intro cs h
    cases cs with
    | nil =>
      rw [munchWords_nil]
      rfl
    | cons c cs =>
      have hlen : cs.length ≤ n := by
        simp only [List.length_cons] at h
        omega
      by_cases hc : pyIsSpace c = true
      · rw [collapseWS_cons_space cs c hc,
          pyStrip_cons_space _ (by decide : pyIsSpace ' ' = true)]
        have hd : (cs.dropWhile pyIsSpace).length ≤ n :=
          le_trans (List.dropWhile_sublist _).length_le hlen
        rw [ih (cs.dropWhile pyIsSpace) hd, munchWords_dropWhile cs,
          munchWords_cons_space cs hc]
      · have hc' : pyIsSpace c = false := by simpa using hc
        have htw_all : ∀ x ∈ cs.takeWhile (fun d => !pyIsSpace d), pyIsSpace x = false := by
          intro x hx
          have h2 := List.mem_takeWhile_imp hx
          simpa using h2
        have hct_all : ∀ x ∈ c :: cs.takeWhile (fun d => !pyIsSpace d), pyIsSpace x = false := by
          intro x hx
          rcases List.mem_cons.mp hx with rfl | hx'
          · exact hc'
          · exact htw_all x hx'
        have hceq : collapseWS (c :: cs)
            = (c :: cs.takeWhile (fun d => !pyIsSpace d))
              ++ collapseWS (cs.dropWhile (fun d => !pyIsSpace d)) := by
          conv_lhs => rw [show cs
            = cs.takeWhile (fun d => !pyIsSpace d) ++ cs.dropWhile (fun d => !pyIsSpace d)
            from (List.takeWhile_append_dropWhile _ cs).symm]
          exact collapseWS_append_word _ hct_all
        rw [munchWords_cons_nonspace cs hc', hceq]
        cases hsplit : cs.dropWhile (fun d => !pyIsSpace d) with
        | nil =>
          simp only [show collapseWS ([] : List Char) = [] from rfl, List.append_nil,
            munchWords_nil]
          rw [pyStrip_of_all hct_all]
          rfl
        | cons d r' =>
          have hd_space : pyIsSpace d = true := by
            have h2 := dropWhile_head_false cs d r' hsplit
            simpa using h2
          rw [collapseWS_cons_space r' d hd_space, munchWords_cons_space r' hd_space,
            ← munchWords_dropWhile r']
          have hle : r'.length + 1 ≤ cs.length := by
            have h3 := (List.dropWhile_sublist (fun d => !pyIsSpace d) (l := cs)).length_le
            rw [hsplit] at h3
            simpa using h3
          have hlen2 : (r'.dropWhile pyIsSpace).length ≤ n := by
            have h3 := (List.dropWhile_sublist pyIsSpace (l := r')).length_le
            omega
          cases hsplit2 : r'.dropWhile pyIsSpace with
          | nil =>
            simp only [show collapseWS ([] : List Char) = [] from rfl, munchWords_nil]
            rw [List.cons_append, pyStrip_eq_dropTrail _ hc', ← List.cons_append,
              show (' ' :: ([] : List Char)) = [' '] from rfl,
              dropTrail_append_space, dropTrail_all hct_all]
            rfl
          | cons e r3 =>
            have he : pyIsSpace e = false := dropWhile_head_false r' e r3 hsplit2
            have hih := ih (e :: r3) (by rw [← hsplit2]; exact hlen2)
            have hcol : collapseWS (e :: r3) = e :: collapseWS r3 :=
              collapseWS_cons_nonspace r3 e he
            have hdt : dropTrail (collapseWS (e :: r3)) = joinSp (munchWords (e :: r3)) := by
              rw [← hih, hcol, pyStrip_eq_dropTrail (collapseWS r3) he]
            have hne : dropTrail (collapseWS (e :: r3)) ≠ [] := by
              rw [hcol]
              exact dropTrail_ne_nil (List.mem_cons_self e _) he
            have hmne : munchWords (e :: r3) ≠ [] := by
              rw [munchWords_cons_nonspace r3 he]
              simp
            rw [List.cons_append, pyStrip_eq_dropTrail _ hc', ← List.cons_append,
              show (' ' :: collapseWS (e :: r3)) = [' '] ++ collapseWS (e :: r3) from rfl,
              ← List.append_assoc, dropTrail_append hne, hdt, joinSp_cons _ hmne,
              List.append_assoc]
            rfl

/-- The strip/collapse equivalence, for every character list. -/
theorem strip_collapse (cs : List Char) :
    pyStrip (collapseWS cs) = joinSp (munchWords cs) :=
  strip_collapse_aux cs.length cs (le_refl _)

/-- C6 (amended): the normalization applied to the title before embedding
replaces each character that is not a word character (alphanumeric or
underscore) and not whitespace by a space, collapses runs of whitespace to
single spaces, and trims both ends. -/
theorem claim_C6 (s : String) : clean_text s = clean_text_amended s := by
  unfold clean_text clean_text_amended cleanChars
  congr 1
  rw [pyWords_eq_munch, ← strip_collapse, pyStrip_idem]

/-- Counterexample to C6 as stated: the code replaces a hyphen by a space
rather than deleting it, and keeps an underscore, which is neither
alphanumeric nor whitespace; the claimed delete-then-collapse normalization
produces different strings on both inputs. -/
theorem claim_C6_counterexample :
    clean_text ("a-b") = "a b" ∧ clean_text_claimed ("a-b") = "ab" ∧
    clean_text ("a-b") ≠ clean_text_claimed ("a-b") ∧
    clean_text ("a_b") = "a_b" ∧ clean_text_claimed ("a_b") = "ab" ∧
    '_' ∈ (clean_text ("a_b")).data ∧ '_'.isAlphanum = false ∧ pyIsSpace '_' = false := by
  decide
